import Mathlib

/-!
Verification of the Mohr's-circle strain visualization (src/src/main.tsx).

The component's numeric state is modelled over the reals; JavaScript's
`%` remainder (sign of the dividend, magnitude below the divisor) is
modelled by `jsRem`, and the JavaScript `parseFloat` builtin (which the
edit handler calls) is modelled by `jsParseFloat`, restricted to plain
decimal forms.  The component state machine (`animate`, `togglePlay`,
`stepEdit`) follows the React component's handlers line by line.
-/

namespace MohrCircle

/-- The three user-supplied strain fields (state `strains`). -/
structure Strains where
  normalX : ℝ
  normalY : ℝ
  shearXY : ℝ

/-- Derived circle geometry, the result of `calculateMohrCircle`. -/
structure CircleGeometry where
  center : ℝ
  radius : ℝ

/-- Derived strain pair at the current sweep angle, the result of
`calculateCurrentStrains`. -/
structure CurrentStrainPair where
  normal : ℝ
  shear : ℝ

/-- `CIRCLE_DURATION = 30000`: milliseconds for one full revolution. -/
def CIRCLE_DURATION : ℝ := 30000

/-- `ANGLE_PER_MS = (2 * Math.PI) / CIRCLE_DURATION`. -/
noncomputable def ANGLE_PER_MS : ℝ := (2 * Real.pi) / CIRCLE_DURATION

/-- `calculateMohrCircle`: `center = (normalX + normalY) / 2`,
`radius = Math.sqrt(Math.pow((normalX - normalY) / 2, 2) + Math.pow(shearXY, 2))`. -/
noncomputable def calculateMohrCircle (s : Strains) : CircleGeometry :=
  ⟨(s.normalX + s.normalY) / 2,
   Real.sqrt (((s.normalX - s.normalY) / 2) ^ 2 + s.shearXY ^ 2)⟩

/-- The strain projection at an angle, the body of `calculateCurrentStrains`
after the circle geometry has been destructured (the spec's
`computeStrainAtAngle`): `normal = center + radius * cos(angle)`,
`shear = radius * sin(angle)`. -/
noncomputable def computeStrainAtAngle (g : CircleGeometry) (angle : ℝ) :
    CurrentStrainPair :=
  ⟨g.center + g.radius * Real.cos angle, g.radius * Real.sin angle⟩

/-- `calculateCurrentStrains(angle)`: recomputes the circle from the current
strains, then projects at the given angle. -/
noncomputable def calculateCurrentStrains (s : Strains) (angle : ℝ) :
    CurrentStrainPair :=
  let g := calculateMohrCircle s
  ⟨g.center + g.radius * Real.cos angle, g.radius * Real.sin angle⟩

/-- Truncation toward zero, as used by the JavaScript `%` operator. -/
noncomputable def truncR (x : ℝ) : ℤ := if 0 ≤ x then ⌊x⌋ else ⌈x⌉

/-- The JavaScript remainder `x % y` (for `y > 0`): sign of the dividend,
magnitude strictly below `y`. -/
noncomputable def jsRem (x y : ℝ) : ℝ := x - y * truncR (x / y)

lemma truncR_diff_lt_one (x : ℝ) :
    x - truncR x < 1 ∧ -1 < x - truncR x := by
  unfold truncR
  split
  · exact ⟨by have := Int.lt_floor_add_one x; linarith,
           by have := Int.floor_le x; linarith⟩
  · exact ⟨by have := Int.le_ceil x; linarith,
           by have := Int.ceil_lt_add_one x; linarith⟩

lemma jsRem_bounds (x y : ℝ) (hy : 0 < y) :
    -y < jsRem x y ∧ jsRem x y < y := by
  obtain ⟨h1, h2⟩ := truncR_diff_lt_one (x / y)
  have hmul : jsRem x y = y * (x / y - truncR (x / y)) := by
    unfold jsRem
    field_simp
  rw [hmul]
  constructor
  · nlinarith
  · nlinarith

lemma truncR_eq_zero {x : ℝ} (h1 : -1 < x) (h2 : x < 1) : truncR x = 0 := by
  unfold truncR
  split
  · rename_i h
    rw [Int.floor_eq_zero_iff]
    exact ⟨h, h2⟩
  · rename_i h
    rw [Int.ceil_eq_zero_iff]
    exact ⟨h1, le_of_lt (lt_of_not_le h)⟩

lemma jsRem_eq_self {x y : ℝ} (hy : 0 < y) (h1 : -y < x) (h2 : x < y) :
    jsRem x y = x := by
  have hx1 : -1 < x / y := by
    rw [neg_lt, ← neg_div]
    exact (div_lt_one hy).mpr (by linarith)
  have hx2 : x / y < 1 := (div_lt_one hy).mpr h2
  unfold jsRem
  rw [truncR_eq_zero hx1 hx2]
  simp

/-- The component state: `strains`, the sweep `angle`, the play/pause flag
`isAnimating`, and `lastUpdateTimeRef.current` (`lastUpdate`). -/
structure MState where
  strains : Strains
  angle : ℝ
  isAnimating : Bool
  lastUpdate : ℝ

/-- The initial component state: `strains = {2.0, 0.2, 1.81/2}`,
`angle = -2.38 * Math.PI / 180`, `isAnimating = true`,
`lastUpdateTimeRef.current = 0`. -/
noncomputable def initState : MState :=
  { strains := ⟨2.0, 0.2, 1.81 / 2⟩
    angle := -2.38 * Real.pi / 180
    isAnimating := true
    lastUpdate := 0 }

/-- The `animate(timestamp)` frame callback.  If paused it returns at once.
`!lastUpdateTimeRef.current` is JavaScript number falsiness: true exactly when
the stored value is `0`; in that case the timestamp is first stored, making
`deltaTime` zero.  The angle is updated to
`(prev + ANGLE_PER_MS * deltaTime) % (2 * Math.PI)` with the JavaScript
remainder, and the timestamp is recorded. -/
noncomputable def animate (timestamp : ℝ) (s : MState) : MState :=
  if s.isAnimating = false then s
  else
    let last := if s.lastUpdate = 0 then timestamp else s.lastUpdate
    let deltaTime := timestamp - last
    let angleChange := ANGLE_PER_MS * deltaTime
    { s with angle := jsRem (s.angle + angleChange) (2 * Real.pi)
             lastUpdate := timestamp }

/-- The pause/continue button plus the `isAnimating` effect: the flag is
negated, and on entering the playing state `lastUpdateTimeRef.current` is
reset to `0`. -/
noncomputable def togglePlay (s : MState) : MState :=
  if s.isAnimating then { s with isAnimating := false }
  else { s with isAnimating := true, lastUpdate := 0 }

/-- The three editable strain fields. -/
inductive Field
  | normalX
  | normalY
  | shearXY
deriving DecidableEq

/-- Read one field of `Strains`. -/
def getField (f : Field) (s : Strains) : ℝ :=
  match f with
  | .normalX => s.normalX
  | .normalY => s.normalY
  | .shearXY => s.shearXY

/-- Replace one field of `Strains`, keeping the other two (the spread
`{...prev, [field]: v}`). -/
def setField (f : Field) (v : ℝ) (s : Strains) : Strains :=
  match f with
  | .normalX => { s with normalX := v }
  | .normalY => { s with normalY := v }
  | .shearXY => { s with shearXY := v }

/-- Accumulate a leading run of decimal digits; returns `none` when no digit
was read. -/
def readInt : List Char → Option ℕ → Option ℕ × List Char
  | [], acc => (acc, [])
  | c :: cs, acc =>
    if c.isDigit then readInt cs (some ((acc.getD 0) * 10 + (c.toNat - 48)))
    else (acc, c :: cs)

/-- Accumulate the digits after the decimal point: numerator and digit count. -/
def readFrac : List Char → ℕ → ℕ → ℕ × ℕ
  | [], num, cnt => (num, cnt)
  | c :: cs, num, cnt =>
    if c.isDigit then readFrac cs (num * 10 + (c.toNat - 48)) (cnt + 1)
    else (num, cnt)

/-- Model of the JavaScript `parseFloat` builtin called by
`handleInputChange`, restricted to plain decimal forms (optional sign,
digits, optional fraction; no exponent or Infinity): it reads the longest
numeric prefix and returns `none` (NaN) when no digit is found. -/
def jsParseFloat (str : String) : Option ℚ :=
  let cs := str.toList.dropWhile Char.isWhitespace
  let sign : ℚ := match cs with
    | '-' :: _ => -1
    | _ => 1
  let cs1 := match cs with
    | '-' :: r => r
    | '+' :: r => r
    | _ => cs
  let p := readInt cs1 none
  let frac := match p.2 with
    | '.' :: rest => readFrac rest 0 0
    | _ => (0, 0)
  let hasFracDigit := match p.2 with
    | '.' :: c :: _ => c.isDigit
    | _ => false
  if p.1.isSome || hasFracDigit then
    some (sign * ((p.1.getD 0 : ℚ) + (frac.1 : ℚ) / (10 : ℚ) ^ frac.2))
  else none

/-- `handleInputChange(e, field)`: parse the new text with `parseFloat`; a
NaN result (`none`) is replaced by `0`; the parsed value is merged into the
edited field only. -/
noncomputable def handleInputChange (raw : String) (f : Field) (s : Strains) :
    Strains :=
  let value := jsParseFloat raw
  setField f (match value with | none => 0 | some q => (q : ℝ)) s

/-- An edit step on the whole component state: only `strains` changes. -/
noncomputable def stepEdit (raw : String) (f : Field) (s : MState) : MState :=
  { s with strains := handleInputChange raw f s.strains }

/-- The states the component can reach: the initial state, closed under
frame callbacks, play/pause toggles, and field edits. -/
inductive Reachable : MState → Prop
  | init : Reachable initState
  | frame (t : ℝ) {s : MState} : Reachable s → Reachable (animate t s)
  | toggle {s : MState} : Reachable s → Reachable (togglePlay s)
  | edit (raw : String) (f : Field) {s : MState} :
      Reachable s → Reachable (stepEdit raw f s)

/-- At every reachable state the stored sweep angle lies strictly between
`-2π` and `2π`: the seed angle is a small negative value and every frame
update stores a JavaScript remainder by `2π`. -/
lemma angle_bound {s : MState} (h : Reachable s) :
    -(2 * Real.pi) < s.angle ∧ s.angle < 2 * Real.pi := by
  induction h with
  | init =>
    constructor
    · show -(2 * Real.pi) < -2.38 * Real.pi / 180
      nlinarith [Real.pi_pos]
    · show -2.38 * Real.pi / 180 < 2 * Real.pi
      nlinarith [Real.pi_pos]
  | frame t h ih =>
    unfold animate
    split
    · exact ih
    · simpa using jsRem_bounds _ (2 * Real.pi) (by positivity)
  | toggle h ih =>
    unfold togglePlay
    split
    · exact ih
    · exact ih
  | edit raw f h ih => exact ih

lemma jsRem_add_int (x y : ℝ) : ∃ k : ℤ, jsRem x y = x + k * y :=
  ⟨-truncR (x / y), by unfold jsRem; push_cast; ring⟩

lemma animate_isAnimating (t : ℝ) (s : MState) :
    (animate t s).isAnimating = s.isAnimating := by
  unfold animate
  split <;> rfl

lemma animate_lastUpdate (t : ℝ) (s : MState) (ha : s.isAnimating = true) :
    (animate t s).lastUpdate = t := by
  have h : ¬(s.isAnimating = false) := by simp [ha]
  unfold animate
  rw [if_neg h]

lemma animate_angle_first (t : ℝ) (s : MState) (ha : s.isAnimating = true)
    (h0 : s.lastUpdate = 0) :
    (animate t s).angle = jsRem s.angle (2 * Real.pi) := by
  have h : ¬(s.isAnimating = false) := by simp [ha]
  unfold animate
  rw [if_neg h, if_pos h0]
  simp

lemma animate_angle_later (t : ℝ) (s : MState) (ha : s.isAnimating = true)
    (h0 : ¬s.lastUpdate = 0) :
    (animate t s).angle =
      jsRem (s.angle + ANGLE_PER_MS * (t - s.lastUpdate)) (2 * Real.pi) := by
  have h : ¬(s.isAnimating = false) := by simp [ha]
  unfold animate
  rw [if_neg h, if_neg h0]

lemma getField_setField (f : Field) (v : ℝ) (s : Strains) :
    getField f (setField f v s) = v := by
  cases f <;> rfl

lemma getField_setField_ne {f g : Field} (h : g ≠ f) (v : ℝ) (s : Strains) :
    getField g (setField f v s) = getField g s := by
  cases f <;> cases g <;> simp_all [getField, setField]

/-- C1 (counterexample): at the input `{normalX: 2.0, normalY: 0.2,
shearXY: 0.905}` the computed radius is `sqrt(1.629025) ≈ 1.27633`, which
differs from the claimed approximation `1.2776` by more than `0.001`, so the
radius is not `≈ 1.2776` at the stated four-decimal precision. -/
theorem C1_approx_refuted :
    0.001 < |(calculateMohrCircle ⟨2.0, 0.2, 0.905⟩).radius - 1.2776| := by
  have h : (calculateMohrCircle ⟨2.0, 0.2, 0.905⟩).radius =
      Real.sqrt 1.629025 := by
    unfold calculateMohrCircle
    norm_num
  have hs : Real.sqrt 1.629025 < (1.2766 : ℝ) := by
    rw [Real.sqrt_lt' (by norm_num)]
    norm_num
  rw [h, abs_sub_comm, abs_of_pos (by linarith)]
  linarith

/-- C1 (amended): `calculateMohrCircle` returns
`center = (normalX + normalY) / 2` and
`radius = sqrt(((normalX - normalY)/2)^2 + shearXY^2)`; for the input
`{normalX: 2.0, normalY: 0.2, shearXY: 0.905}` it returns `center = 1.1` and
`radius = sqrt(0.9^2 + 0.905^2) ≈ 1.2763` (within `0.0005`). -/
theorem C1_computeCircle (s : Strains) :
    calculateMohrCircle s =
      ⟨(s.normalX + s.normalY) / 2,
       Real.sqrt (((s.normalX - s.normalY) / 2) ^ 2 + s.shearXY ^ 2)⟩ ∧
    (calculateMohrCircle ⟨2.0, 0.2, 0.905⟩).center = 1.1 ∧
    (calculateMohrCircle ⟨2.0, 0.2, 0.905⟩).radius =
      Real.sqrt ((0.9 : ℝ) ^ 2 + (0.905 : ℝ) ^ 2) ∧
    |(calculateMohrCircle ⟨2.0, 0.2, 0.905⟩).radius - 1.2763| < 0.0005 := by
  have h : (calculateMohrCircle ⟨2.0, 0.2, 0.905⟩).radius =
      Real.sqrt 1.629025 := by
    unfold calculateMohrCircle
    norm_num
  refine ⟨rfl, by unfold calculateMohrCircle; norm_num, ?_, ?_⟩
  · rw [h]
    norm_num
  · have h1 : (1.2758 : ℝ) < Real.sqrt 1.629025 := by
      rw [Real.lt_sqrt (by norm_num)]
      norm_num
    have h2 : Real.sqrt 1.629025 < (1.2768 : ℝ) := by
      rw [Real.sqrt_lt' (by norm_num)]
      norm_num
    rw [h, abs_lt]
    constructor <;> linarith

/-- C2: the strain projection is `normal = center + radius * cos(angle)` and
`shear = radius * sin(angle)`; it is total, and a zero radius gives the
degenerate point `(center, 0)` at every angle. -/
theorem C2_strain_projection (s : Strains) (g : CircleGeometry) (θ : ℝ) :
    calculateCurrentStrains s θ =
      computeStrainAtAngle (calculateMohrCircle s) θ ∧
    computeStrainAtAngle g θ =
      ⟨g.center + g.radius * Real.cos θ, g.radius * Real.sin θ⟩ ∧
    (g.radius = 0 → computeStrainAtAngle g θ = ⟨g.center, 0⟩) := by
  refine ⟨rfl, rfl, fun h => ?_⟩
  unfold computeStrainAtAngle
  rw [h]
  simp

/-- C2 witness: the degenerate circle of center 5 and radius 0 projects to
`(5, 0)` at angle 1. -/
theorem C2_strain_projection_witness :
    computeStrainAtAngle ⟨5, 0⟩ 1 = ⟨5, 0⟩ :=
  (C2_strain_projection ⟨0, 0, 0⟩ ⟨5, 0⟩ 1).2.2 rfl

/-- C3 (counterexample): the initial state is reachable and its stored sweep
angle is `-2.38 * π / 180 < 0`, outside the claimed interval `[0, 2π)`. -/
theorem C3_initial_angle_negative :
    Reachable initState ∧ initState.angle < 0 := by
  refine ⟨Reachable.init, ?_⟩
  show -2.38 * Real.pi / 180 < 0
  nlinarith [Real.pi_pos]

/-- C3 (amended): at every reachable state the stored sweep angle lies in
the open interval `(-2π, 2π)`: the JavaScript remainder keeps the sign of
its dividend, and the seed angle is a small negative value. -/
theorem C3_angle_in_open_interval (s : MState) (h : Reachable s) :
    -(2 * Real.pi) < s.angle ∧ s.angle < 2 * Real.pi :=
  angle_bound h

/-- C3 witness: the bound holds at the initial state. -/
theorem C3_angle_in_open_interval_witness :
    -(2 * Real.pi) < initState.angle ∧ initState.angle < 2 * Real.pi :=
  C3_angle_in_open_interval initState Reachable.init

/-- C4: while playing with a recorded (nonzero) previous timestamp `L`, a
frame at time `t` advances the stored angle by `ANGLE_PER_MS * (t - L)` up to
a multiple of `2π`, where `ANGLE_PER_MS = 2π / 30000`; in particular a frame
at `t = L + 30000` advances it by exactly `2π`, returning it to its starting
value modulo `2π`. -/
theorem C4_rate_correct (s : MState) (L t : ℝ) (ha : s.isAnimating = true)
    (hl : s.lastUpdate = L) (h0 : L ≠ 0) :
    ANGLE_PER_MS = 2 * Real.pi / 30000 ∧
    (∃ k : ℤ, (animate t s).angle =
      s.angle + ANGLE_PER_MS * (t - L) + k * (2 * Real.pi)) ∧
    ANGLE_PER_MS * ((L + 30000) - L) = 2 * Real.pi ∧
    (∃ k : ℤ, (animate (L + 30000) s).angle =
      s.angle + 2 * Real.pi + k * (2 * Real.pi)) := by
  have h0' : ¬s.lastUpdate = 0 := by rw [hl]; exact h0
  have key : ∀ u : ℝ, ∃ k : ℤ, (animate u s).angle =
      s.angle + ANGLE_PER_MS * (u - L) + k * (2 * Real.pi) := by
    intro u
    rw [animate_angle_later u s ha h0', hl]
    obtain ⟨k, hk⟩ :=
      jsRem_add_int (s.angle + ANGLE_PER_MS * (u - L)) (2 * Real.pi)
    exact ⟨k, by rw [hk]⟩
  have hC : ANGLE_PER_MS * ((L + 30000) - L) = 2 * Real.pi := by
    rw [show ((L + 30000) - L : ℝ) = 30000 by ring]
    unfold ANGLE_PER_MS CIRCLE_DURATION
    field_simp
  refine ⟨rfl, key t, hC, ?_⟩
  obtain ⟨k, hk⟩ := key (L + 30000)
  rw [hC] at hk
  exact ⟨k, hk⟩

/-- C4 witness: a playing state with recorded timestamp 5 and a frame at
30005 advances the angle by `2π` up to a multiple of `2π`. -/
theorem C4_rate_correct_witness :
    (⟨⟨0, 0, 0⟩, 1, true, 5⟩ : MState).isAnimating = true ∧
    (∃ k : ℤ, (animate (5 + 30000) (⟨⟨0, 0, 0⟩, 1, true, 5⟩ : MState)).angle =
      (⟨⟨0, 0, 0⟩, 1, true, 5⟩ : MState).angle + 2 * Real.pi +
        k * (2 * Real.pi)) :=
  ⟨rfl, (C4_rate_correct ⟨⟨0, 0, 0⟩, 1, true, 5⟩ 5 (5 + 30000) rfl rfl
    (by norm_num)).2.2.2⟩

/-- C5: resuming from a reachable paused state resets the last-frame
timestamp to 0; the first frame after resume records its own timestamp as the
new baseline and leaves the angle unchanged, so the paused interval is never
added to the angle. -/
theorem C5_resume_no_jump (s : MState) (t : ℝ) (hr : Reachable s)
    (hp : s.isAnimating = false) :
    (togglePlay s).lastUpdate = 0 ∧
    (animate t (togglePlay s)).lastUpdate = t ∧
    (animate t (togglePlay s)).angle = s.angle := by
  have ht : togglePlay s = { s with isAnimating := true, lastUpdate := 0 } := by
    unfold togglePlay
    rw [if_neg]
    simp [hp]
  rw [ht]
  refine ⟨rfl, animate_lastUpdate t _ rfl, ?_⟩
  rw [animate_angle_first t _ rfl rfl]
  obtain ⟨h1, h2⟩ := angle_bound hr
  exact jsRem_eq_self (by positivity) h1 h2

/-- C5 witness: pausing the initial state, resuming, and receiving a frame
at time 7 records 7 and leaves the angle of the paused state unchanged. -/
theorem C5_resume_no_jump_witness :
    (togglePlay (togglePlay initState)).lastUpdate = 0 ∧
    (animate 7 (togglePlay (togglePlay initState))).lastUpdate = 7 ∧
    (animate 7 (togglePlay (togglePlay initState))).angle =
      (togglePlay initState).angle :=
  C5_resume_no_jump (togglePlay initState) 7 (Reachable.toggle Reachable.init)
    rfl

/-- C10: the zero timestamp is the "no baseline" sentinel: after a playing
frame at `t = 0` the stored marker is 0, so the next frame (at any `t2`) is
again treated as a first frame — it records `t2` and does not advance the
angle. -/
theorem C10_zero_timestamp_sentinel (s : MState) (t2 : ℝ)
    (ha : s.isAnimating = true) :
    (animate 0 s).lastUpdate = 0 ∧
    (animate t2 (animate 0 s)).lastUpdate = t2 ∧
    (animate t2 (animate 0 s)).angle = (animate 0 s).angle := by
  have hl0 : (animate 0 s).lastUpdate = 0 := animate_lastUpdate 0 s ha
  have ha1 : (animate 0 s).isAnimating = true := by
    rw [animate_isAnimating]
    exact ha
  refine ⟨hl0, animate_lastUpdate t2 _ ha1, ?_⟩
  rw [animate_angle_first t2 _ ha1 hl0]
  have hb : -(2 * Real.pi) < (animate 0 s).angle ∧
      (animate 0 s).angle < 2 * Real.pi := by
    by_cases h0 : s.lastUpdate = 0
    · rw [animate_angle_first 0 s ha h0]
      exact jsRem_bounds _ _ (by positivity)
    · rw [animate_angle_later 0 s ha h0]
      exact jsRem_bounds _ _ (by positivity)
  exact jsRem_eq_self (by positivity) hb.1 hb.2

/-- C10 witness: from the initial (playing) state, a frame at 0 then a frame
at 5 leaves the angle where the frame at 0 put it. -/
theorem C10_zero_timestamp_sentinel_witness :
    (animate 0 initState).lastUpdate = 0 ∧
    (animate 5 (animate 0 initState)).lastUpdate = 5 ∧
    (animate 5 (animate 0 initState)).angle = (animate 0 initState).angle :=
  C10_zero_timestamp_sentinel initState 5 rfl

/-- C6: every edit parses the new text as a floating-point number; a failed
parse silently yields 0 for the edited field, a successful parse yields the
parsed value; in particular "abc" yields 0 and "3.5" yields 3.5. -/
theorem C6_parse_policy (raw : String) (f : Field) (s : Strains) :
    getField f (handleInputChange raw f s) =
      (match jsParseFloat raw with
       | none => (0 : ℝ)
       | some q => (q : ℝ)) ∧
    jsParseFloat "abc" = none ∧
    getField f (handleInputChange "abc" f s) = 0 ∧
    jsParseFloat "3.5" = some (7 / 2 : ℚ) ∧
    getField f (handleInputChange "3.5" f s) = 3.5 := by
  have habc : jsParseFloat "abc" = none := rfl
  have h35 : jsParseFloat "3.5" = some (7 / 2 : ℚ) := by
    have h : jsParseFloat "3.5" =
        some (1 * (((3 : ℕ) : ℚ) + ((5 : ℕ) : ℚ) / (10 : ℚ) ^ 1)) := rfl
    rw [h]
    norm_num
  refine ⟨?_, habc, ?_, h35, ?_⟩
  · unfold handleInputChange
    exact getField_setField f _ s
  · unfold handleInputChange
    rw [habc]
    exact getField_setField f _ s
  · unfold handleInputChange
    rw [h35]
    rw [getField_setField f _ s]
    norm_num

/-- C7: a single-field edit leaves the two unedited strain fields with the
values they had before the edit. -/
theorem C7_unedited_fields (raw : String) (f g : Field) (s : Strains)
    (h : g ≠ f) :
    getField g (handleInputChange raw f s) = getField g s := by
  unfold handleInputChange
  exact getField_setField_ne h _ s

/-- C7 witness: editing normalX with "9" leaves normalY unchanged. -/
theorem C7_unedited_fields_witness :
    getField Field.normalY (handleInputChange "9" Field.normalX ⟨1, 2, 3⟩) =
      getField Field.normalY ⟨1, 2, 3⟩ :=
  C7_unedited_fields "9" Field.normalX Field.normalY ⟨1, 2, 3⟩ (by decide)

/-- C8: the strain projection is periodic with period `2π` in the angle. -/
theorem C8_periodicity (g : CircleGeometry) (θ : ℝ) :
    computeStrainAtAngle g (θ + 2 * Real.pi) = computeStrainAtAngle g θ := by
  unfold computeStrainAtAngle
  rw [Real.cos_add_two_pi, Real.sin_add_two_pi]

/-- C9: the computed radius is nonnegative for every strain input, negative
and fractional fields included. -/
theorem C9_radius_nonneg (s : Strains) : 0 ≤ (calculateMohrCircle s).radius :=
  Real.sqrt_nonneg _

end MohrCircle
